import Mathlib

/-
Shallow embedding of the rRACES R-binding layer
(src/src/simulation.cpp and src/src/drivers.cpp) and proofs about it.

Cells live on a finite 2D tissue grid.  A slot either holds a cell
(with an id and a species id) or is wild-type (empty).  The embedding
models the pure algorithmic content of the binding layer: rectangle
counting, the tumour bounding box, the tile scan of search_sample,
border-cell selection, mutant registration, the run preconditions,
the statistics-history queries, the lineage-graph rendering and the
periodic interrupt polling of the ending tests.
-/

namespace RRaces

/-- Conversion of a non-negative integer value to C++ `uint16_t`:
reduction modulo `2 ^ 16`. -/
def u16 (n : Nat) : Nat := n % 65536

/-- A cell stored in a tissue slot: its numeric id and its species id
(`CellInTissue` restricted to the fields the binding layer reads). -/
structure CellRec where
  id : Nat
  species : Nat
deriving DecidableEq, Repr

/-- The tissue: a `width × height` grid of slots.  `cellAt x y` is the
cell in slot `(x, y)`, or `none` when the slot is wild-type.
`speciesSig i` and `speciesMutant i` give the epigenetic-signature
string and the mutant name of the species with id `i`
(`tissue.get_species(i)` in the source). -/
structure Tissue where
  width : Nat
  height : Nat
  cellAt : Int → Int → Option CellRec
  speciesSig : Nat → String
  speciesMutant : Nat → String

/-- Source `count_in` (simulation.cpp:1218): the number of cells in the tile
clipped to the tissue,
`[init_x, min(u16(init_x+width), tissue_width)) ×
 [init_y, min(u16(init_y+height), tissue_height))`,
whose species id belongs to `ids`. -/
def count_in (ids : List Nat) (t : Tissue) (ix iy w h : Nat) : Nat :=
  let xmax := min (u16 (ix + w)) t.width
  let ymax := min (u16 (iy + h)) t.height
  ((List.range' ix (xmax - ix)).map (fun x =>
    ((List.range' iy (ymax - iy)).filter (fun y =>
      match t.cellAt (x : Int) (y : Int) with
      | some cell => ids.contains cell.species
      | none => false)).length)).sum

/-- One entry of the species catalogue of the tissue: a species id and
the id of the mutant it belongs to. -/
structure SpeciesEntry where
  id : Nat
  mutantId : Nat
deriving DecidableEq, Repr

/-- The data `search_sample` reads from the simulation: the tissue, the
species catalogue, and the mutant-name resolution
(`find_mutant_id`, which lives in the underlying library). -/
structure Sim where
  tissue : Tissue
  species : List SpeciesEntry
  mutantIdOf : String → Nat

/-- Source `collect_species_of` (simulation.cpp:1271): the ids of the species
whose mutant is the named one. -/
def collect_species_of (sim : Sim) (name : String) : List Nat :=
  (sim.species.filter (fun s => s.mutantId = sim.mutantIdOf name)).map (fun s => s.id)

/-- Source `get_tumor_bounding_box` (simulation.cpp:1289): scans the whole
grid and returns `(lower_corner, upper_corner)`, starting from
`lower = (width, height)` and `upper = (0, 0)` and shrinking/expanding
on every non-wild-type slot. -/
def get_tumor_bounding_box (t : Tissue) : (Nat × Nat) × (Nat × Nat) :=
  (List.range t.width).foldl (fun bb (gx : Nat) =>
    (List.range t.height).foldl (fun bb (gy : Nat) =>
      if (t.cellAt (gx : Int) (gy : Int)).isSome then
        ((min bb.1.1 gx, min bb.1.2 gy), (max bb.2.1 gx, max bb.2.2 gy))
      else bb) bb)
    ((t.width, t.height), (0, 0))

/-- Source `div_ceil` (simulation.cpp:1322) on `uint16_t` values. -/
def div_ceil (n d : Nat) : Nat := if n = 0 then 0 else 1 + (n - 1) / d

/-- The number of grid tiles along one axis (simulation.cpp:1340):
`t_dim / tile + (t_dim % tile > 0 ? 1 : 0)` computed on the signed
difference `upper - lower` with C truncating division, then converted
to `uint16_t`. -/
def gridDim (upper lower tile : Nat) : Nat :=
  let tw : Int := (upper : Int) - (lower : Int)
  ((tw.tdiv (tile : Int) + (if 0 < tw.tmod (tile : Int) then 1 else 0)) % 65536).toNat

/-- The grid width used by `search_sample` for tiles of width `w`. -/
def searchGW (sim : Sim) (w : Nat) : Nat :=
  gridDim (get_tumor_bounding_box sim.tissue).2.1 (get_tumor_bounding_box sim.tissue).1.1 w

/-- The grid height used by `search_sample` for tiles of height `h`. -/
def searchGH (sim : Sim) (h : Nat) : Nat :=
  gridDim (get_tumor_bounding_box sim.tissue).2.2 (get_tumor_bounding_box sim.tissue).1.2 h

/-- The tissue position of the lower corner of grid tile `(gx, gy)`
(simulation.cpp:1252 and 1265): `grid * tile + bounding_box_lower`,
converted to `uint16_t`. -/
def tileOrigin (sim : Sim) (w h : Nat) (p : Nat × Nat) : Nat × Nat :=
  (u16 (p.1 * w + (get_tumor_bounding_box sim.tissue).1.1),
   u16 (p.2 * h + (get_tumor_bounding_box sim.tissue).1.2))

/-- The rectangle `search_sample` builds for grid tile `p`
(`get_tissue_rectangle`, simulation.cpp:1259): lower corner at the
tile origin, sizes `w × h`. -/
structure SearchRect where
  x : Nat
  y : Nat
  w : Nat
  h : Nat
deriving DecidableEq, Repr

/-- Source `get_tissue_rectangle` (simulation.cpp:1259). -/
def get_tissue_rectangle (sim : Sim) (w h : Nat) (p : Nat × Nat) : SearchRect :=
  ⟨(tileOrigin sim w h p).1, (tileOrigin sim w h p).2, w, h⟩

/-- The success test of the scan (simulation.cpp:1352): tile `p`
contains strictly more than `n` cells of the mutant. -/
def tileSat (sim : Sim) (name : String) (n w h : Nat) (p : Nat × Nat) : Bool :=
  n < count_in (collect_species_of sim name) sim.tissue
        (tileOrigin sim w h p).1 (tileOrigin sim w h p).2 w h

/-- The body of the `diag` loop of `search_sample` (simulation.cpp:1346):
at level `d`, walk the top row left-to-right, then the column right of
the ring top-to-bottom, then the row below the ring right-to-left,
then the ring's bottom-left tile, then the left column bottom-to-top,
stopping at the first tile satisfying `sat`. -/
def ringFind (gw gh : Nat) (sat : Nat × Nat → Bool) (d : Nat) : Option (Nat × Nat) :=
  Option.or (((List.range' d (gw - d - d)).map (fun gx => (gx, d))).find? sat)
  (Option.or (((List.range' d (gh - d - d)).map (fun gy => (gw - d, gy))).find? sat)
  (Option.or ((((List.range' (d + 1) (gw - d - d)).reverse).map
                (fun gx => (gx, gh - d))).find? sat)
  (Option.or (([((d : Nat), gh - d)]).find? sat)
             ((((List.range' (d + 1) (gh - d - d)).reverse).map
                (fun gy => (d, gy))).find? sat))))

/-- Source `search_sample` (simulation.cpp:1329), body: the `diag` loop runs the
four row/column walks of `ringFind` for each level and returns the
rectangle of the first tile whose count exceeds `n`; after all levels,
fail (`none`). -/
def search_sample (sim : Sim) (name : String) (n w h : Nat) : Option SearchRect :=
  Option.map (get_tissue_rectangle sim w h)
    ((List.range (div_ceil (min (searchGW sim w) (searchGH sim h)) 2)).findSome?
      (ringFind (searchGW sim w) (searchGH sim h) (tileSat sim name n w h)))

/-- The tiles visited by one diagonal level of the scan of
`search_sample`, in visit order. -/
def ringScan (gw gh d : Nat) : List (Nat × Nat) :=
  ((List.range' d (gw - d - d)).map (fun gx => (gx, d)))
  ++ ((List.range' d (gh - d - d)).map (fun gy => (gw - d, gy)))
  ++ (((List.range' (d + 1) (gw - d - d)).reverse).map (fun gx => (gx, gh - d)))
  ++ [((d : Nat), gh - d)]
  ++ (((List.range' (d + 1) (gh - d - d)).reverse).map (fun gy => (d, gy)))

/-- The complete tile visit order of `search_sample`: the diagonal
levels from the outermost ring of the grid inward. -/
def scanOrder (gw gh : Nat) : List (Nat × Nat) :=
  (List.range (div_ceil (min gw gh) 2)).flatMap (fun d => ringScan gw gh d)

theorem findSome_find_flatMap {α β : Type} (p : β → Bool) (f : α → List β) :
    (l : List α) → l.findSome? (fun a => (f a).find? p) = (l.flatMap f).find? p
  | [] => rfl
  | a :: l => by
    rw [List.findSome?_cons, List.flatMap_cons, List.find?_append,
        findSome_find_flatMap p f l]
    cases List.find? p (f a) <;> simp [Option.or]

/-- The implementation's nested loops visit exactly `scanOrder`:
`search_sample` is the first satisfying tile of the flattened order. -/
theorem ringFind_eq_find (gw gh : Nat) (sat : Nat × Nat → Bool) (d : Nat) :
    ringFind gw gh sat d = (ringScan gw gh d).find? sat := by
  rw [ringFind, ringScan]
  simp only [List.find?_append, Option.or_assoc]

/-- The implementation's nested loops visit exactly `scanOrder`:
`search_sample` is the first satisfying tile of the flattened order. -/
theorem search_sample_scan_core (sim : Sim) (name : String) (n w h : Nat) :
    search_sample sim name n w h =
      ((scanOrder (searchGW sim w) (searchGH sim h)).find?
          (tileSat sim name n w h)).map (get_tissue_rectangle sim w h) := by
  have h : ringFind (searchGW sim w) (searchGH sim h) (tileSat sim name n w h)
      = fun d => (ringScan (searchGW sim w) (searchGH sim h) d).find?
          (tileSat sim name n w h) :=
    funext fun d => ringFind_eq_find _ _ _ d
  rw [search_sample, scanOrder, ← findSome_find_flatMap, h]

/-- A 4×4 tissue holding three cells of species 1 (mutant id 10,
name "A"), at positions (0,0), (1,1) and (3,3). -/
def exTissue : Tissue where
  width := 4
  height := 4
  cellAt := fun x y =>
    if (x = 0 ∧ y = 0) ∨ (x = 1 ∧ y = 1) ∨ (x = 3 ∧ y = 3) then some ⟨0, 1⟩ else none
  speciesSig := fun _ => ""
  speciesMutant := fun _ => "A"

/-- The simulation state around `exTissue`: one species (id 1) of the
single mutant "A" (id 10). -/
def exSim : Sim where
  tissue := exTissue
  species := [⟨1, 10⟩]
  mutantIdOf := fun s => if s = "A" then 10 else 0

/-- C1 (amended): `search_sample(mutant, n, w, h)` lays a grid of
`w×h` tiles over the tumour bounding box and scans the tiles ring by
ring going inward from the grid's outer boundary, each level starting
at its top-left tile; it returns the rectangle of the first scanned
tile whose mutant-cell count exceeds `n`, and fails when no scanned
tile satisfies the condition (`find?` over `scanOrder` returning
`none`). -/
theorem search_sample_inward_scan (sim : Sim) (name : String) (n w h : Nat) :
    search_sample sim name n w h =
      ((scanOrder (searchGW sim w) (searchGH sim h)).find?
          (tileSat sim name n w h)).map (get_tissue_rectangle sim w h) :=
  search_sample_scan_core sim name n w h

/-- C1 counterexample: on `exSim` with `n = 0` and 1×1 tiles the grid
is 3×3, the centre tile `(1,1)` satisfies the count condition, yet
`search_sample` returns the corner tile `(0,0)` — the scan is not an
outward spiral from the grid centre. -/
theorem search_sample_not_centre_first :
    tileSat exSim "A" 0 1 1 (searchGW exSim 1 / 2, searchGH exSim 1 / 2) = true ∧
    search_sample exSim "A" 0 1 1 = some ⟨0, 0, 1, 1⟩ ∧
    some (get_tissue_rectangle exSim 1 1 (searchGW exSim 1 / 2, searchGH exSim 1 / 2))
      ≠ search_sample exSim "A" 0 1 1 :=
  ⟨by decide, by decide, by decide⟩

/-- C2: every rectangle returned by `search_sample` contains strictly
more than `n` cells of the named mutant; in particular a tile whose
count is exactly `n` is never returned. -/
theorem search_sample_count_gt (sim : Sim) (name : String) (n w h : Nat)
    (r : SearchRect) (hr : search_sample sim name n w h = some r) :
    n < count_in (collect_species_of sim name) sim.tissue r.x r.y w h ∧
    count_in (collect_species_of sim name) sim.tissue r.x r.y w h ≠ n := by
  rw [search_sample_scan_core] at hr
  rcases Option.map_eq_some'.mp hr with ⟨p, hp, hrp⟩
  have hsat := List.find?_some hp
  rw [tileSat, decide_eq_true_eq] at hsat
  subst hrp
  exact ⟨hsat, Nat.ne_of_gt hsat⟩

/-- C2 witness: the search on `exSim` succeeds and the returned
rectangle indeed holds more than 0 cells of mutant "A". -/
theorem search_sample_count_gt_witness :
    0 < count_in (collect_species_of exSim "A") exSim.tissue 0 0 1 1 ∧
    count_in (collect_species_of exSim "A") exSim.tissue 0 0 1 1 ≠ 0 :=
  search_sample_count_gt exSim "A" 0 1 1 ⟨0, 0, 1, 1⟩ (by decide)

/-- Source `get_possible_directions` (drivers.cpp:195): the eight non-null
combinations of an x-move and a y-move; the numeric deltas
(`X_UP = +1` on x, `Y_UP = +1` on y, `..._DOWN = -1`, `..._NULL = 0`)
are the library's `PositionDelta` semantics; the final null move is
popped. -/
def possible_directions : List (Int × Int) :=
  [(1, 1), (1, -1), (1, 0), (-1, 1), (-1, -1), (-1, 0), (0, 1), (0, -1)]

/-- Source `Tissue::is_valid` on a (possibly negative) position. -/
def is_valid (t : Tissue) (p : Int × Int) : Bool :=
  0 ≤ p.1 && p.1 < (t.width : Int) && 0 ≤ p.2 && p.2 < (t.height : Int)

/-- The `do { pos = pos + delta } while (valid && wild)` walk of
`choose_border_cell_in` (drivers.cpp:739): step from `p` along `d`
through wild-type slots; `true` when the walk leaves the tissue,
`false` when it meets a cell.  The fuel bounds the walk; the walk
itself leaves the grid after at most `width + height` steps. -/
def ray_exits (t : Tissue) (d : Int × Int) : Nat → Int × Int → Bool
  | 0, _ => false
  | fuel + 1, p =>
    let q := (p.1 + d.1, p.2 + d.2)
    if ¬ is_valid t q then true
    else if (t.cellAt q.1 q.2).isSome then false
    else ray_exits t d fuel q

/-- The acceptance test of `choose_border_cell_in` (drivers.cpp:736):
the candidate cell is returned when, for some direction, the walk
along that direction exits the tissue. -/
def border_accepts (t : Tissue) (p : Int × Int) : Bool :=
  possible_directions.any (fun d => ray_exits t d (t.width + t.height + 2) p)

/-- Source `choose_border_cell_in` (drivers.cpp:723): scan at most 999
candidate cells produced by the chooser and return the first accepted
one; `none` models the `"Missed to find a border cell"` error. -/
def choose_border_cell_in (t : Tissue) (candidates : List (Int × Int)) :
    Option (Int × Int) :=
  (candidates.take 999).find? (border_accepts t)

/-- Source `choose_cell_in` (drivers.cpp:2042, simulation.cpp:1083): with
`duplicate_internal_cells` set, delegate to the library's internal
chooser; in border-growth mode, delegate to `choose_border_cell_in`. -/
def choose_cell_in (internal : Option (Int × Int)) (duplicate_internal_cells : Bool)
    (t : Tissue) (candidates : List (Int × Int)) : Option (Int × Int) :=
  if duplicate_internal_cells then internal else choose_border_cell_in t candidates

/-- A 1×1 tissue fully occupied by a single cell at (0,0). -/
def fullTissue : Tissue where
  width := 1
  height := 1
  cellAt := fun x y => if x = 0 ∧ y = 0 then some ⟨0, 1⟩ else none
  speciesSig := fun _ => ""
  speciesMutant := fun _ => "A"

/-- C4 counterexample: on the fully occupied 1×1 tissue, border-growth
selection returns the cell at (0,0) although none of its 8 neighbour
positions is a wild-type slot of the tissue (they all lie outside the
grid). -/
theorem choose_border_no_wildtype_neighbour :
    choose_cell_in none false fullTissue [(0, 0)] = some (0, 0) ∧
    (possible_directions.all (fun d =>
      !(is_valid fullTissue (0 + d.1, 0 + d.2) &&
        (fullTissue.cellAt (0 + d.1) (0 + d.2)).isNone))) = true :=
  ⟨by decide, by decide⟩

/-- C4 (amended): in border-growth mode every cell returned by
`choose_cell_in` / `choose_border_cell_in` has, among its 8
neighbouring positions, at least one that lies outside the tissue or
is a wild-type slot (the first step of the accepting walk). -/
theorem choose_border_cell_neighbour (internal : Option (Int × Int)) (t : Tissue)
    (candidates : List (Int × Int)) (p : Int × Int)
    (hp : choose_cell_in internal false t candidates = some p) :
    ∃ d ∈ possible_directions,
      is_valid t (p.1 + d.1, p.2 + d.2) = false ∨
      (t.cellAt (p.1 + d.1) (p.2 + d.2)).isNone = true := by
  rw [choose_cell_in, if_neg (by simp)] at hp
  have hacc := List.find?_some hp
  rw [border_accepts, List.any_eq_true] at hacc
  rcases hacc with ⟨d, hd, hray⟩
  refine ⟨d, hd, ?_⟩
  rw [show t.width + t.height + 2 = (t.width + t.height + 1) + 1 from rfl,
      ray_exits] at hray
  by_cases hv : is_valid t (p.1 + d.1, p.2 + d.2)
  · rw [if_neg (by simp [hv])] at hray
    by_cases hc : (t.cellAt (p.1 + d.1) (p.2 + d.2)).isSome
    · rw [if_pos hc] at hray
      exact absurd hray (by simp)
    · right
      simpa [Option.isNone_iff_eq_none, Option.not_isSome_iff_eq_none] using hc
  · exact Or.inl (by simpa using hv)

/-- C4 witness: the amended neighbour property evaluated on the
fully occupied 1×1 tissue. -/
theorem choose_border_cell_neighbour_witness :
    ∃ d ∈ possible_directions,
      is_valid fullTissue ((0 : Int) + d.1, (0 : Int) + d.2) = false ∨
      (fullTissue.cellAt ((0 : Int) + d.1) ((0 : Int) + d.2)).isNone = true :=
  choose_border_cell_neighbour none fullTissue [(0, 0)] (0, 0) (by decide)

/-- An R list of named rates, in order (`Rcpp::List`). -/
def RList : Type := List (String × ℚ)

/-- Source `Rcpp::List::containsElementNamed`. -/
def containsElementNamed (l : RList) (s : String) : Bool :=
  (l : List (String × ℚ)).any (fun p => p.1 = s)

/-- Source `Simulation::has_names` (simulation.cpp:221): the list has exactly
the aimed names. -/
def has_names (l : RList) (aimed : List String) : Bool :=
  aimed.length = (l : List (String × ℚ)).length &&
  aimed.all (containsElementNamed l)

/-- Source `Simulation::has_names_in` (simulation.cpp:236): every name of the
list is among the aimed ones (and the list is no longer than them). -/
def has_names_in (l : RList) (aimed : List String) : Bool :=
  !(aimed.length < (l : List (String × ℚ)).length) &&
  (l : List (String × ℚ)).all (fun p => aimed.contains p.1)

/-- Source `list["name"]`: the value of the first element with that name
(`0` when absent; every use in the source is guarded by
`has_names`). -/
def rlookup (l : RList) (s : String) : ℚ :=
  (((l : List (String × ℚ)).find? (fun p => p.1 = s)).map (fun p => p.2)).getD 0

/-- The `MutantProperties` record built by `add_mutant`: the mutant
name, the optional epigenetic switch-rate pair, and the per-signature
duplication and death rates set by the rate loop. -/
structure MutantProperties where
  name : String
  epiPair : Option (ℚ × ℚ)
  dupRate : String → Option ℚ
  deathRate : String → Option ℚ

/-- The validation and construction part of the epigenetic overload of
`add_mutant` (simulation.cpp:513): reject the reserved name, check the
three rate lists, then build
`MutantProperties(name, {{epigenetic_rates["-+"], epigenetic_rates["+-"]}})`
and set the per-signature growth and death rates. -/
def build_mutant_epi (name : String) (epigenetic_rates growth_rates death_rates : RList) :
    Except String MutantProperties :=
  if name = "Wild-type" then
    Except.error "\"Wild-type\" is a reserved mutant name."
  else if ¬ has_names epigenetic_rates ["+-", "-+"] then
    Except.error "The second parameter must be a list specifying the epigenetic rate for \"+-\" and \"-+\""
  else if ¬ has_names_in growth_rates ["+", "-"] then
    Except.error "The third parameter must be a list specifying the growth rate for \"+\" and \"-\""
  else if ¬ has_names_in death_rates ["+", "-"] then
    Except.error "The fourth parameter must be a list specifying the death rate for \"+\" and \"-\""
  else
    Except.ok
      { name := name
        epiPair := some (rlookup epigenetic_rates "-+", rlookup epigenetic_rates "+-")
        dupRate := fun st =>
          if (st = "+" ∨ st = "-") ∧ containsElementNamed growth_rates st then
            some (rlookup growth_rates st)
          else none
        deathRate := fun st =>
          if (st = "+" ∨ st = "-") ∧ containsElementNamed death_rates st then
            some (rlookup death_rates st)
          else none }

/-- The validation and construction part of the epigenetics-free
overload of `add_mutant` (simulation.cpp:552). -/
def build_mutant_simple (name : String) (growth_rate death_rate : ℚ) :
    Except String MutantProperties :=
  if name = "Wild-type" then
    Except.error "\"Wild-type\" is a reserved mutant name."
  else
    Except.ok
      { name := name
        epiPair := none
        dupRate := fun st => if st = "" then some growth_rate else none
        deathRate := fun st => if st = "" then some death_rate else none }

/-- The epigenetic overload of `add_mutant` as a registry transformer:
on a validation error the registry is untouched, otherwise the built
mutant is handed to the library's `Simulation::add_mutant`
(`register_fn`). -/
def add_mutant_epi (register_fn : List MutantProperties → MutantProperties → List MutantProperties)
    (reg : List MutantProperties) (name : String)
    (epigenetic_rates growth_rates death_rates : RList) :
    Option String × List MutantProperties :=
  match build_mutant_epi name epigenetic_rates growth_rates death_rates with
  | Except.error e => (some e, reg)
  | Except.ok m => (none, register_fn reg m)

/-- The epigenetics-free overload of `add_mutant` as a registry
transformer. -/
def add_mutant_simple (register_fn : List MutantProperties → MutantProperties → List MutantProperties)
    (reg : List MutantProperties) (name : String) (growth_rate death_rate : ℚ) :
    Option String × List MutantProperties :=
  match build_mutant_simple name growth_rate death_rate with
  | Except.error e => (some e, reg)
  | Except.ok m => (none, register_fn reg m)

/-- C3: whenever the epigenetic overload of `add_mutant` accepts its
arguments, the rate list contains entries named "-+" and "+-" and the
switch-rate pair of the built mutant is
`(minus_to_plus, plus_to_minus) = (rates["-+"], rates["+-"])`:
the first component is the "-+" entry, the second the "+-" entry. -/
theorem add_mutant_switch_pair (name : String)
    (epigenetic_rates growth_rates death_rates : RList) (m : MutantProperties)
    (hok : build_mutant_epi name epigenetic_rates growth_rates death_rates = Except.ok m) :
    containsElementNamed epigenetic_rates "-+" = true ∧
    containsElementNamed epigenetic_rates "+-" = true ∧
    m.epiPair = some (rlookup epigenetic_rates "-+", rlookup epigenetic_rates "+-") := by
  rw [build_mutant_epi] at hok
  by_cases h1 : name = "Wild-type"
  · rw [if_pos h1] at hok; exact absurd hok (by simp)
  rw [if_neg h1] at hok
  by_cases h2 : has_names epigenetic_rates ["+-", "-+"]
  · rw [if_neg (by simp [h2])] at hok
    have hpair : m.epiPair
        = some (rlookup epigenetic_rates "-+", rlookup epigenetic_rates "+-") := by
      by_cases h3 : has_names_in growth_rates ["+", "-"]
      · rw [if_neg (by simp [h3])] at hok
        by_cases h4 : has_names_in death_rates ["+", "-"]
        · rw [if_neg (by simp [h4])] at hok
          cases hok
          rfl
        · rw [if_pos (by simp [h4])] at hok; exact absurd hok (by simp)
      · rw [if_pos (by simp [h3])] at hok; exact absurd hok (by simp)
    have h2' := h2
    rw [has_names, Bool.and_eq_true, List.all_eq_true] at h2'
    exact ⟨h2'.2 "-+" (by simp), h2'.2 "+-" (by simp), hpair⟩
  · rw [if_pos (by simp [h2])] at hok; exact absurd hok (by simp)

/-- A concrete epigenetic-rate list with a "+-" entry of 1/100 and a
"-+" entry of 2/100. -/
def exEpiRates : RList := [("+-", 1/100), ("-+", 2/100)]

/-- Concrete growth rates for the two signatures. -/
def exGrowthRates : RList := [("+", 2/10), ("-", 8/100)]

/-- Concrete death rates for the two signatures. -/
def exDeathRates : RList := [("+", 1/10), ("-", 1/100)]

/-- The mutant record built from the concrete rate lists. -/
def exMutant : MutantProperties where
  name := "A"
  epiPair := some (rlookup exEpiRates "-+", rlookup exEpiRates "+-")
  dupRate := fun st =>
    if (st = "+" ∨ st = "-") ∧ containsElementNamed exGrowthRates st then
      some (rlookup exGrowthRates st)
    else none
  deathRate := fun st =>
    if (st = "+" ∨ st = "-") ∧ containsElementNamed exDeathRates st then
      some (rlookup exDeathRates st)
    else none

/-- C3 witness: the construction on the concrete rate lists yields the
pair `(rates["-+"], rates["+-"])`. -/
theorem add_mutant_switch_pair_witness :
    containsElementNamed exEpiRates "-+" = true ∧
    containsElementNamed exEpiRates "+-" = true ∧
    exMutant.epiPair = some (rlookup exEpiRates "-+", rlookup exEpiRates "+-") :=
  add_mutant_switch_pair "A" exEpiRates exGrowthRates exDeathRates exMutant (by rfl)

/-- C7: both overloads of `add_mutant` fail on the reserved name
"Wild-type" and leave the registry unchanged, whatever the library's
registration would have done. -/
theorem add_mutant_wildtype_rejected
    (register_fn : List MutantProperties → MutantProperties → List MutantProperties)
    (reg : List MutantProperties) (epigenetic_rates growth_rates death_rates : RList)
    (growth_rate death_rate : ℚ) :
    add_mutant_epi register_fn reg "Wild-type" epigenetic_rates growth_rates death_rates
      = (some "\"Wild-type\" is a reserved mutant name.", reg) ∧
    add_mutant_simple register_fn reg "Wild-type" growth_rate death_rate
      = (some "\"Wild-type\" is a reserved mutant name.", reg) := by
  constructor
  · rw [add_mutant_epi, build_mutant_epi, if_pos rfl]
  · rw [add_mutant_simple, build_mutant_simple, if_pos rfl]

/-- The simulation state as the run wrappers see it: the number of
cells in the tissue (`tissue.num_of_cells()`) and the species-name
resolution (`tissue.get_species(name)`, which throws on unknown
names). -/
structure SimState where
  num_of_cells : Nat
  speciesIdOf : String → Option Nat

/-- Source `validate_non_empty_tissue` (simulation.cpp:855): true exactly when
the run must be rejected. -/
def tissue_is_empty (s : SimState) : Bool := s.num_of_cells = 0

/-- The error message of `validate_non_empty_tissue`. -/
def emptyTissueMsg : String := "The tissue does not contain any cell."

/-- The event-name table (simulation.cpp:53), in its `std::map`
iteration (alphabetical) order. -/
def event_names : List String := ["death", "growth", "switch"]

/-- Source `run_up_to_time` (simulation.cpp:862): validate the tissue, then
hand over to the library's `Simulation::run` (`run_fn`).  Exceptions
are modelled by returning the error next to the unchanged state. -/
def run_up_to_time (run_fn : SimState → SimState) (time : ℚ) (s : SimState) :
    Option String × SimState :=
  if tissue_is_empty s then (some emptyTissueMsg, s)
  else (none, run_fn s)

/-- Source `run_up_to_size` (simulation.cpp:873): validate the tissue, look
the species up, then run. -/
def run_up_to_size (run_fn : SimState → SimState) (species_name : String)
    (num_of_cells : Nat) (s : SimState) : Option String × SimState :=
  if tissue_is_empty s then (some emptyTissueMsg, s)
  else
    match s.speciesIdOf species_name with
    | none => (some "unknown species", s)
    | some _ => (none, run_fn s)

/-- Source `run_up_to_event` (simulation.cpp:886): validate the tissue, check
the event name, look the species up, then run. -/
def run_up_to_event (run_fn : SimState → SimState) (event species_name : String)
    (num_of_events : Nat) (s : SimState) : Option String × SimState :=
  if tissue_is_empty s then (some emptyTissueMsg, s)
  else if ¬ event_names.contains event then (some "unsupported event", s)
  else
    match s.speciesIdOf species_name with
    | none => (some "unknown species", s)
    | some _ => (none, run_fn s)

/-- C5: on an empty tissue each of the three run wrappers fails at once
with the precondition error and returns the state unchanged, for every
possible behaviour of the underlying run loop (so no event is ever
simulated). -/
theorem run_empty_tissue_fails (run_fn₁ run_fn₂ run_fn₃ : SimState → SimState)
    (time : ℚ) (species_name event : String) (n k : Nat) (s : SimState)
    (hempty : s.num_of_cells = 0) :
    run_up_to_time run_fn₁ time s = (some emptyTissueMsg, s) ∧
    run_up_to_size run_fn₂ species_name n s = (some emptyTissueMsg, s) ∧
    run_up_to_event run_fn₃ event species_name k s = (some emptyTissueMsg, s) := by
  have h : tissue_is_empty s = true := by simp [tissue_is_empty, hempty]
  exact ⟨by rw [run_up_to_time, if_pos h], by rw [run_up_to_size, if_pos h],
         by rw [run_up_to_event, if_pos h]⟩

/-- C5 witness: the three wrappers evaluated on a concrete empty
state. -/
theorem run_empty_tissue_fails_witness :
    run_up_to_time id 5 ⟨0, fun _ => none⟩ = (some emptyTissueMsg, ⟨0, fun _ => none⟩) ∧
    run_up_to_size id "A" 10 ⟨0, fun _ => none⟩ = (some emptyTissueMsg, ⟨0, fun _ => none⟩) ∧
    run_up_to_event id "growth" "A" 3 ⟨0, fun _ => none⟩
      = (some emptyTissueMsg, ⟨0, fun _ => none⟩) :=
  run_empty_tissue_fails id id id 5 "A" "growth" 10 3 ⟨0, fun _ => none⟩ rfl

/-- The per-species statistics stored at each history time
(`SpeciesStatistics`). -/
structure SpeciesStatistics where
  curr_cells : Nat
  killed_cells : Nat
  num_duplications : Nat
  num_epigenetic_events : Nat
deriving DecidableEq, Repr

/-- Source `count_events` (simulation.cpp:59), keyed by the event-name table:
"death" reads the killed cells, "growth" the duplications, "switch"
the epigenetic events. -/
def count_events (st : SpeciesStatistics) (event : String) : Nat :=
  if event = "death" then st.killed_cells
  else if event = "growth" then st.num_duplications
  else st.num_epigenetic_events

/-- One species as the history queries render it: id, mutant name and
epigenetic signature. -/
structure SpeciesDesc where
  id : Nat
  mutant : String
  epistate : String
deriving DecidableEq, Repr

/-- The statistics history: time-keyed snapshots (`std::map` of time to
per-species statistics), listed in increasing-time order. -/
def StatsHistory : Type := List (ℚ × (Nat → Option SpeciesStatistics))

/-- The samples visited by the history loops (simulation.cpp:959 and
1012): start at `history.lower_bound(minimum_time)` and walk while the
time stays at most `maximum_time`. -/
def history_window (history : StatsHistory) (tmin tmax : ℚ) : StatsHistory :=
  ((history : List _).dropWhile (fun p => p.1 < tmin)).takeWhile (fun p => p.1 ≤ tmax)

/-- Source `count_history_sample_in` (simulation.cpp:929). -/
def count_history_sample_in (history : StatsHistory) (tmin tmax : ℚ) : Nat :=
  (history_window history tmin tmax).length

/-- One row of the `get_count_history` data frame. -/
structure CountHistoryRow where
  mutant : String
  epistate : String
  count : Nat
  time : ℚ
deriving DecidableEq, Repr

/-- One row of the `get_firing_history` data frame. -/
structure FiringHistoryRow where
  event : String
  mutant : String
  epistate : String
  fired : Nat
  time : ℚ
deriving DecidableEq, Repr

/-- The rows `get_count_history` emits for one history sample
(simulation.cpp:1016): one row per species; a species missing from the
snapshot counts 0. -/
def count_rows_at (speciesL : List SpeciesDesc) (p : ℚ × (Nat → Option SpeciesStatistics)) :
    List CountHistoryRow :=
  speciesL.map (fun sp =>
    ⟨sp.mutant, sp.epistate,
     (match p.2 sp.id with | some st => st.curr_cells | none => 0), p.1⟩)

/-- Source `get_count_history(minimum_time, maximum_time)`
(simulation.cpp:998). -/
def get_count_history (speciesL : List SpeciesDesc) (history : StatsHistory)
    (tmin tmax : ℚ) : List CountHistoryRow :=
  (history_window history tmin tmax).flatMap (count_rows_at speciesL)

/-- The rows `get_firing_history` emits for one history sample
(simulation.cpp:963): one row per species and per event kind. -/
def firing_rows_at (speciesL : List SpeciesDesc) (p : ℚ × (Nat → Option SpeciesStatistics)) :
    List FiringHistoryRow :=
  speciesL.flatMap (fun sp =>
    event_names.map (fun ev =>
      ⟨ev, sp.mutant, sp.epistate,
       (match p.2 sp.id with | some st => count_events st ev | none => 0), p.1⟩))

/-- Source `get_firing_history(minimum_time, maximum_time)`
(simulation.cpp:944). -/
def get_firing_history (speciesL : List SpeciesDesc) (history : StatsHistory)
    (tmin tmax : ℚ) : List FiringHistoryRow :=
  (history_window history tmin tmax).flatMap (firing_rows_at speciesL)

theorem takeWhile_eq_filter_window {α : Type} (tmin tmax : ℚ) :
    ∀ l : List (ℚ × α), l.Pairwise (fun a b => a.1 < b.1) → (∀ x ∈ l, tmin ≤ x.1) →
      l.takeWhile (fun p => p.1 ≤ tmax)
        = l.filter (fun p => tmin ≤ p.1 && p.1 ≤ tmax)
  | [], _, _ => rfl
  | p :: l, hs, hm => by
    rw [List.pairwise_cons] at hs
    by_cases hp : p.1 ≤ tmax
    · rw [List.takeWhile_cons_of_pos (by simpa using hp),
          List.filter_cons_of_pos
            (by simp [hp, hm p (by simp)]),
          takeWhile_eq_filter_window tmin tmax l hs.2
            (fun x hx => le_of_lt (lt_of_le_of_lt (hm p (by simp)) (hs.1 x hx)))]
    · rw [List.takeWhile_cons_of_neg (by simpa using hp),
          List.filter_cons_of_neg (by simp [hp]),
          List.filter_eq_nil_iff.mpr (fun x hx => by
            have hgt : tmax < x.1 := lt_trans (lt_of_not_le hp) (hs.1 x hx)
            simp [not_le.mpr hgt])]

theorem window_eq_filter (tmin tmax : ℚ) :
    ∀ history : List (ℚ × (Nat → Option SpeciesStatistics)),
      history.Pairwise (fun a b => a.1 < b.1) →
      history_window history tmin tmax
        = history.filter (fun p => tmin ≤ p.1 && p.1 ≤ tmax)
  | [], _ => rfl
  | p :: l, hs => by
    rw [List.pairwise_cons] at hs
    by_cases hp : p.1 < tmin
    · rw [history_window, List.dropWhile_cons_of_pos (by simpa using hp),
          List.filter_cons_of_neg (by simp [not_le.mpr hp]),
          ← history_window, window_eq_filter tmin tmax l hs.2]
    · rw [history_window, List.dropWhile_cons_of_neg (by simpa using hp)]
      exact takeWhile_eq_filter_window tmin tmax (p :: l)
        (List.pairwise_cons.mpr hs)
        (fun x hx => by
          rcases List.mem_cons.mp hx with h | h
          · rw [h]; exact le_of_not_lt hp
          · exact le_of_lt (lt_of_le_of_lt (le_of_not_lt hp) (hs.1 x h)))

/-- C8: over an inclusive window `[tmin, tmax]` with `tmin ≤ tmax`, the
count history has exactly one row per species for each history time in
the window and the firing history exactly one row per species and
event kind, and neither has rows for history times outside the
window. -/
theorem history_window_inclusive (speciesL : List SpeciesDesc) (history : StatsHistory)
    (tmin tmax : ℚ)
    (hsorted : (history : List (ℚ × (Nat → Option SpeciesStatistics))).Pairwise
      (fun a b => a.1 < b.1))
    (hwin : tmin ≤ tmax) :
    get_count_history speciesL history tmin tmax
      = ((history : List _).filter (fun p => tmin ≤ p.1 && p.1 ≤ tmax)).flatMap
          (count_rows_at speciesL) ∧
    get_firing_history speciesL history tmin tmax
      = ((history : List _).filter (fun p => tmin ≤ p.1 && p.1 ≤ tmax)).flatMap
          (firing_rows_at speciesL) := by
  rw [get_count_history, get_firing_history, window_eq_filter tmin tmax history hsorted]
  exact ⟨rfl, rfl⟩

/-- A one-sample history at time 1 with statistics for species 7
only. -/
def exHistory : StatsHistory :=
  [(1, fun i => if i = 7 then some ⟨3, 1, 2, 0⟩ else none)]

/-- C8 witness: the window equalities on a concrete one-species,
one-sample history with window `[0, 2]`. -/
theorem history_window_inclusive_witness :
    get_count_history [⟨7, "A", ""⟩] exHistory 0 2
      = ((exHistory : List _).filter (fun p => 0 ≤ p.1 && p.1 ≤ 2)).flatMap
          (count_rows_at [⟨7, "A", ""⟩]) ∧
    get_firing_history [⟨7, "A", ""⟩] exHistory 0 2
      = ((exHistory : List _).filter (fun p => 0 ≤ p.1 && p.1 ≤ 2)).flatMap
          (firing_rows_at [⟨7, "A", ""⟩]) :=
  history_window_inclusive [⟨7, "A", ""⟩] exHistory 0 2
    (by simp [exHistory]) (by norm_num)

/-- A lineage edge together with its first-occurrence time
(`TimedLineageEdge`, simulation.cpp:784). -/
structure TimedLineageEdge where
  ancestor : Nat
  progeny : Nat
  time : ℚ
deriving DecidableEq, Repr

/-- Source `TimedLineageEdgeCmp` (simulation.cpp:797): strict lexicographic
comparison on (time, ancestor, progeny). -/
def TimedLineageEdgeCmp (a b : TimedLineageEdge) : Bool :=
  decide (a.time < b.time) ||
  (decide (a.time = b.time) && decide (a.ancestor < b.ancestor)) ||
  (decide (a.time = b.time) && decide (a.ancestor = b.ancestor) &&
    decide (a.progeny < b.progeny))

/-- Source `sorted_timed_edges` (simulation.cpp:808): `std::sort` with
`TimedLineageEdgeCmp`, modelled by a merge sort with respect to the
comparator's non-strict complement (any correct sort of a strict weak
order yields a permutation pairwise ordered by that complement). -/
def sorted_timed_edges (edges : List TimedLineageEdge) : List TimedLineageEdge :=
  edges.mergeSort (fun a b => ! TimedLineageEdgeCmp b a)

/-- One row of the `get_lineage_graph` data frame. -/
structure LineageRow where
  ancestor : String
  progeny : String
  first_cross : ℚ
deriving DecidableEq, Repr

/-- The rendering of one sorted edge (simulation.cpp:839): species ids
resolve through the id-to-name map except the reserved wild-type id,
which renders as the literal "Wild-type". -/
def renderLineageEdge (wild : Nat) (id2name : Nat → String) (e : TimedLineageEdge) :
    LineageRow :=
  ⟨if e.ancestor ≠ wild then id2name e.ancestor else "Wild-type",
   if e.progeny ≠ wild then id2name e.progeny else "Wild-type",
   e.time⟩

/-- Source `get_lineage_graph` (simulation.cpp:827). -/
def get_lineage_graph (wild : Nat) (id2name : Nat → String)
    (edges : List TimedLineageEdge) : List LineageRow :=
  (sorted_timed_edges edges).map (renderLineageEdge wild id2name)

/-- The strict order decided by `TimedLineageEdgeCmp`, as a
proposition. -/
def edgeLT (a b : TimedLineageEdge) : Prop :=
  a.time < b.time ∨ (a.time = b.time ∧ a.ancestor < b.ancestor) ∨
  (a.time = b.time ∧ a.ancestor = b.ancestor ∧ a.progeny < b.progeny)

/-- The non-strict lexicographic order on (time, ancestor, progeny). -/
def edgeLE (a b : TimedLineageEdge) : Prop :=
  a.time < b.time ∨ (a.time = b.time ∧ a.ancestor < b.ancestor) ∨
  (a.time = b.time ∧ a.ancestor = b.ancestor ∧ a.progeny ≤ b.progeny)

theorem cmp_eq_true_iff (a b : TimedLineageEdge) :
    TimedLineageEdgeCmp a b = true ↔ edgeLT a b := by
  simp [TimedLineageEdgeCmp, edgeLT]
  tauto

theorem edgeLT_asymm (a b : TimedLineageEdge) : edgeLT a b → edgeLT b a → False := by
  intro h h'
  rcases h with x | ⟨x1, x2⟩ | ⟨x1, x2, x3⟩ <;>
    rcases h' with y | ⟨y1, y2⟩ | ⟨y1, y2, y3⟩ <;> first | linarith | omega

theorem not_edgeLT_iff (a b : TimedLineageEdge) : ¬ edgeLT b a ↔ edgeLE a b := by
  constructor
  · intro h
    rcases lt_trichotomy a.time b.time with ht | ht | ht
    · exact Or.inl ht
    · rcases Nat.lt_trichotomy a.ancestor b.ancestor with ha | ha | ha
      · exact Or.inr (Or.inl ⟨ht, ha⟩)
      · refine Or.inr (Or.inr ⟨ht, ha, ?_⟩)
        by_contra hp
        exact h (Or.inr (Or.inr ⟨ht.symm, ha.symm, Nat.lt_of_not_le hp⟩))
      · exact absurd (Or.inr (Or.inl ⟨ht.symm, ha⟩)) h
    · exact absurd (Or.inl ht) h
  · intro hle hlt
    rcases hle with h | ⟨h1, h2⟩ | ⟨h1, h2, h3⟩ <;>
      rcases hlt with h' | ⟨h1', h2'⟩ | ⟨h1', h2', h3'⟩ <;>
        first | linarith | omega

theorem edgeLE_trans (a b c : TimedLineageEdge) :
    edgeLE a b → edgeLE b c → edgeLE a c := by
  intro h h'
  rcases h with h | ⟨h1, h2⟩ | ⟨h1, h2, h3⟩ <;>
    rcases h' with h' | ⟨h1', h2'⟩ | ⟨h1', h2', h3'⟩ <;>
      first
      | exact Or.inl (by linarith)
      | exact Or.inr (Or.inl ⟨by linarith, by omega⟩)
      | exact Or.inr (Or.inr ⟨by linarith, by omega, by omega⟩)

theorem edge_le_complement (a b : TimedLineageEdge) :
    (! TimedLineageEdgeCmp b a) = true ↔ edgeLE a b := by
  rw [Bool.not_eq_true', ← Bool.not_eq_true, cmp_eq_true_iff, not_edgeLT_iff]

/-- C6: `get_lineage_graph` renders the recorded lineage edges in an
order that is non-decreasing lexicographically in (first-occurrence
time, ancestor id, progeny id) — one row per recorded edge, and the
reserved wild-type id renders as the literal "Wild-type" on both
endpoints. -/
theorem get_lineage_graph_sorted (wild : Nat) (id2name : Nat → String)
    (edges : List TimedLineageEdge) :
    ∃ es : List TimedLineageEdge,
      es.Perm edges ∧ List.Pairwise edgeLE es ∧
      get_lineage_graph wild id2name edges = es.map (renderLineageEdge wild id2name) ∧
      ∀ e ∈ es,
        (e.ancestor = wild → (renderLineageEdge wild id2name e).ancestor = "Wild-type") ∧
        (e.progeny = wild → (renderLineageEdge wild id2name e).progeny = "Wild-type") := by
  refine ⟨sorted_timed_edges edges, List.mergeSort_perm edges _, ?_, rfl, ?_⟩
  · have hs : List.Pairwise (fun a b => (! TimedLineageEdgeCmp b a) = true)
        (sorted_timed_edges edges) := by
      rw [sorted_timed_edges]
      exact List.sorted_mergeSort
        (fun a b c hab hbc =>
          (edge_le_complement a c).mpr
            (edgeLE_trans a b c ((edge_le_complement a b).mp hab)
              ((edge_le_complement b c).mp hbc)))
        (fun a b => by
          by_cases h : TimedLineageEdgeCmp b a = true
          · have hf : TimedLineageEdgeCmp a b = false :=
              Bool.eq_false_iff.mpr (fun hab =>
                edgeLT_asymm a b ((cmp_eq_true_iff a b).mp hab)
                  ((cmp_eq_true_iff b a).mp h))
            simp [hf]
          · simp [Bool.eq_false_iff.mpr h])
        edges
    exact hs.imp (fun h => (edge_le_complement _ _).mp h)
  · intro e _
    constructor
    · intro h; simp [renderLineageEdge, h]
    · intro h; simp [renderLineageEdge, h]

/-- One evaluation of the `RTest` wrapper (simulation.cpp:26,
drivers.cpp:32).  A call carries the pending-interrupt flag (whether
`Rcpp::checkUserInterrupt` would throw right now) and the value of the
wrapped ending condition.  The step takes the stored counter and
returns `((polled, result), new_counter)`: when the incremented
counter reaches 10000 it is reset and the hook polled — an interrupt
makes the test return `true`, otherwise the wrapped condition
decides. -/
def rtest_step (call : Bool × Bool) (counter : Nat) : (Bool × Bool) × Nat :=
  if 10000 ≤ counter + 1 then
    ((true, if call.1 then true else call.2), 0)
  else ((false, call.2), counter + 1)

/-- The trace of `RTest` over a sequence of evaluations: for each call,
whether the interrupt hook was polled and what the test returned. -/
def rtest_trace (counter : Nat) : List (Bool × Bool) → List (Bool × Bool)
  | [] => []
  | call :: rest =>
    (rtest_step call counter).1 :: rtest_trace (rtest_step call counter).2 rest

theorem rtest_trace_shift :
    ∀ (calls : List (Bool × Bool)) (c : Nat), c < 10000 →
      rtest_trace c calls = calls.mapIdx (fun i call =>
        (decide ((c + i + 1) % 10000 = 0),
         if (c + i + 1) % 10000 = 0 ∧ call.1 = true then true else call.2))
  | [], _, _ => rfl
  | call :: rest, c, hc => by
    rw [rtest_trace, List.mapIdx_cons]
    by_cases h : 10000 ≤ c + 1
    · have hc9999 : c = 9999 := by omega
      subst hc9999
      rw [rtest_step, if_pos h]
      congr 1
      · cases hcall : call.1 <;> simp [hcall]
      · rw [rtest_trace_shift rest 0 (by omega)]
        congr 1
        funext i p
        have hm : (9999 + (i + 1) + 1) % 10000 = (0 + i + 1) % 10000 := by omega
        rw [hm]
    · rw [rtest_step, if_neg h]
      congr 1
      · have hm : ¬ (c + 0 + 1) % 10000 = 0 := by omega
        simp [hm]
      · rw [rtest_trace_shift rest (c + 1) (by omega)]
        congr 1
        funext i p
        have hm : (c + 1 + i + 1) % 10000 = (c + (i + 1) + 1) % 10000 := by omega
        rw [hm]

/-- C9: starting from a zero counter, the `RTest` ending test polls the
user-interrupt hook exactly on every 10000th evaluation (the counter
resets after each poll); a polled interrupt makes the test return
`true` (stopping the run), and on every other evaluation the result is
exactly the wrapped ending condition. -/
theorem rtest_polls_every_10000 (calls : List (Bool × Bool)) :
    rtest_trace 0 calls = calls.mapIdx (fun i call =>
      (decide ((i + 1) % 10000 = 0),
       if (i + 1) % 10000 = 0 ∧ call.1 = true then true else call.2)) := by
  rw [rtest_trace_shift calls 0 (by omega)]
  congr 1
  funext i p
  rw [Nat.zero_add]

/-- The positions of the inclusive integer interval `[a, b]`, in
ascending order (`for (auto v=a; v<=b; ++v)`). -/
def intRange (a b : Int) : List Int :=
  (List.range (b + 1 - a).toNat).map (fun i => a + (i : Int))

/-- The cell test shared by the two passes of `get_cells`
(simulation.cpp:170 and 292): the slot holds a cell whose species
passes the species filter and whose signature passes the epigenetic
filter. -/
def cellPasses (t : Tissue) (species_filter : List Nat) (epigenetic_filter : List String)
    (x y : Int) : Bool :=
  match t.cellAt x y with
  | none => false
  | some cell =>
    species_filter.contains cell.species &&
    epigenetic_filter.contains (t.speciesSig cell.species)

/-- Source `count_driver_mutated_cells` (simulation.cpp:144) on size-2
corners: 0 when some lower coordinate exceeds the corresponding upper
one, else the number of positions of the rectangle whose cell passes
both filters, scanned column by column. -/
def count_driver_mutated_cells (t : Tissue) (lower upper : Int × Int)
    (species_filter : List Nat) (epigenetic_filter : List String) : Nat :=
  if lower.1 > upper.1 ∨ lower.2 > upper.2 then 0
  else
    ((intRange lower.1 upper.1).map (fun x =>
      ((intRange lower.2 upper.2).filter
        (cellPasses t species_filter epigenetic_filter x)).length)).sum

/-- One row of the `get_cells` data frame. -/
structure CellTableRow where
  cell_id : Nat
  mutant : String
  epistate : String
  position_x : Int
  position_y : Int
deriving DecidableEq, Repr

/-- The row the filling pass of `get_cells` (simulation.cpp:282) writes
at position `(x, y)`, when it writes one. -/
def cellRowAt (t : Tissue) (species_filter : List Nat) (epigenetic_filter : List String)
    (x y : Int) : Option CellTableRow :=
  match t.cellAt x y with
  | none => none
  | some cell =>
    if species_filter.contains cell.species &&
       epigenetic_filter.contains (t.speciesSig cell.species) then
      some ⟨cell.id, t.speciesMutant cell.species, t.speciesSig cell.species, x, y⟩
    else none

/-- The filling pass of `get_cells`: the rows written, in visit
order. -/
def get_cells_rows (t : Tissue) (lower upper : Int × Int)
    (species_filter : List Nat) (epigenetic_filter : List String) : List CellTableRow :=
  (intRange lower.1 upper.1).flatMap (fun x =>
    (intRange lower.2 upper.2).filterMap
      (cellRowAt t species_filter epigenetic_filter x))

theorem cellRowAt_isSome (t : Tissue) (species_filter : List Nat)
    (epigenetic_filter : List String) (x y : Int) :
    (cellRowAt t species_filter epigenetic_filter x y).isSome
      = cellPasses t species_filter epigenetic_filter x y := by
  cases h : t.cellAt x y with
  | none => simp [cellRowAt, cellPasses, h]
  | some cell =>
    rw [cellRowAt, cellPasses]
    simp only [h]
    cases hc : (species_filter.contains cell.species &&
        epigenetic_filter.contains (t.speciesSig cell.species)) <;>
      simp [hc]

theorem length_filterMap_eq_length_filter {α β : Type} (g : α → Option β) (p : α → Bool)
    (hgp : ∀ a, (g a).isSome = p a) :
    ∀ l : List α, (l.filterMap g).length = (l.filter p).length
  | [] => rfl
  | a :: l => by
    rw [List.filterMap_cons, List.filter_cons, ← hgp a]
    cases hg : g a
    · simp [length_filterMap_eq_length_filter g p hgp l]
    · simp [length_filterMap_eq_length_filter g p hgp l]

/-- C10: for every tissue, every pair of size-2 corners and every pair
of filters, the counting pass of `get_cells`
(`count_driver_mutated_cells`) computes exactly the number of rows the
filling pass writes — so each allocated entry is written exactly once
and no write goes past the allocated length. -/
theorem get_cells_count_matches (t : Tissue) (lower upper : Int × Int)
    (species_filter : List Nat) (epigenetic_filter : List String) :
    count_driver_mutated_cells t lower upper species_filter epigenetic_filter
      = (get_cells_rows t lower upper species_filter epigenetic_filter).length := by
  have hlen : ∀ x : Int,
      ((intRange lower.2 upper.2).filterMap
        (cellRowAt t species_filter epigenetic_filter x)).length
      = ((intRange lower.2 upper.2).filter
          (cellPasses t species_filter epigenetic_filter x)).length :=
    fun x => length_filterMap_eq_length_filter _ _
      (fun y => cellRowAt_isSome t species_filter epigenetic_filter x y) _
  simp only [count_driver_mutated_cells, get_cells_rows, List.length_flatMap,
    Function.comp_def, hlen]
  by_cases h : lower.1 > upper.1 ∨ lower.2 > upper.2
  · rw [if_pos h]
    rcases h with h | h
    · have hx : intRange lower.1 upper.1 = [] := by
        rw [intRange, Int.toNat_of_nonpos (by omega)]
        rfl
      rw [hx]
      rfl
    · have hy : intRange lower.2 upper.2 = [] := by
        rw [intRange, Int.toNat_of_nonpos (by omega)]
        rfl
      simp [hy, List.map_const', List.sum_replicate]
  · rw [if_neg h]

end RRaces
